import Mathlib

/-!
Shallow embedding of the curve-fitter service core (`src/app/main.py`):
the base curve generator, the stateful curve mutator, the polynomial
curve fitter, the snapshot builder and the stream endpoint's interval
check.  Floating-point arithmetic of the source is modelled over `ℝ`;
the random draws consumed by the mutator (point count, indices, deltas)
are passed in as explicit parameters ranged over the documented support
of the random source.
-/

namespace CurveFitter

/-- Tenor grid from `TENOR_YEARS` in `src/app/main.py` (11 points, years). -/
noncomputable def TENOR_YEARS : List ℝ :=
  [0.5, 1, 2, 3, 4, 5, 7, 10, 15, 20, 30]

/-- Absolute rate floor `MIN_CURVE_RATE` from `src/app/main.py`. -/
noncomputable def MIN_CURVE_RATE : ℝ := 1.5

/-- Maximal number of mutated points per tick, `MAX_MUTATED_POINTS`. -/
def MAX_MUTATED_POINTS : ℕ := 2

/-- Maximal relative mutation size `MAX_MUTATION_FRACTION`. -/
noncomputable def MAX_MUTATION_FRACTION : ℝ := 0.20

/-- Dense evaluation grid `FITTED_GRID = np.linspace(0.5, 30.0, num=120)`:
point `i` is `0.5 + i * (30 - 0.5) / 119`. -/
noncomputable def FITTED_GRID : List ℝ :=
  (List.range 120).map (fun i : ℕ => 0.5 + (i : ℝ) * ((30 - 0.5) / 119))

/-- Base curve generator `_base_em_curve`: the four vectorised components of
the source, summed pointwise. -/
noncomputable def base_em_curve (tenors : List ℝ) : List ℝ :=
  let short_end := tenors.map (fun t => 8.0 - 0.8 * Real.exp (-t))
  let term_premium := tenors.map (fun t => 1.4 * (1.0 - Real.exp (-t / 7.0)))
  let cyclical_component := tenors.map (fun t => 0.25 * Real.sin (t / 1.5))
  let liquidity_drag := tenors.map (fun t => 0.35 * Real.exp (-(t - 12.0) ^ 2 / 30.0))
  List.zipWith (· + ·)
    (List.zipWith (· + ·) (List.zipWith (· + ·) short_end term_premium) cyclical_component)
    liquidity_drag

/-- The spec's closed-form shape function for one tenor
(`rate(t) = (8.0 - 0.8·e^(-t)) + 1.4·(1 - e^(-t/7)) + 0.25·sin(t/1.5)
+ 0.35·e^(-(t-12)²/30)`, spec §4.1). -/
noncomputable def specRate (t : ℝ) : ℝ :=
  (8.0 - 0.8 * Real.exp (-t)) + 1.4 * (1.0 - Real.exp (-t / 7.0)) +
    0.25 * Real.sin (t / 1.5) + 0.35 * Real.exp (-(t - 12.0) ^ 2 / 30.0)

lemma base_em_curve_eq_map (tenors : List ℝ) :
    base_em_curve tenors = tenors.map specRate := by
  induction tenors with
  | nil => rfl
  | cons t ts ih =>
    simp only [base_em_curve, List.map_cons, List.zipWith_cons_cons] at ih ⊢
    exact congrArg₂ _ rfl ih

lemma specRate_lower_bound (t : ℝ) (ht : 0 ≤ t) : 6.95 ≤ specRate t := by
  have h1 : Real.exp (-t) ≤ 1 := Real.exp_le_one_iff.mpr (by linarith)
  have h2 : Real.exp (-t / 7.0) ≤ 1 := Real.exp_le_one_iff.mpr (by nlinarith)
  have h3 : -1 ≤ Real.sin (t / 1.5) := Real.neg_one_le_sin _
  have h4 : 0 < Real.exp (-(t - 12.0) ^ 2 / 30.0) := Real.exp_pos _
  have h5 : 0 < Real.exp (-t) := Real.exp_pos _
  have h6 : 0 < Real.exp (-t / 7.0) := Real.exp_pos _
  unfold specRate
  nlinarith

lemma tenor_years_nonneg : ∀ t ∈ TENOR_YEARS, 0 ≤ t := by
  intro t ht
  simp only [TENOR_YEARS, List.mem_cons, List.not_mem_nil, or_false] at ht
  rcases ht with h | h | h | h | h | h | h | h | h | h | h <;> rw [h] <;> norm_num

lemma baseCurve_lower_bound :
    ∀ x ∈ base_em_curve TENOR_YEARS, 6.95 ≤ x := by
  intro x hx
  rw [base_em_curve_eq_map] at hx
  obtain ⟨t, ht, rfl⟩ := List.mem_map.mp hx
  exact specRate_lower_bound t (tenor_years_nonneg t ht)

/-- Model of `np.clip(x, lo, hi)`: `min (max x lo) hi` (returns `hi` when
`lo > hi`, as numpy does). -/
noncomputable def clip (x lo hi : ℝ) : ℝ := min (max x lo) hi

/-- The shared mutable curve state: `_base_curve` and `_current_raw_rates`. -/
structure CurveState where
  base : List ℝ
  current : List ℝ

/-- One iteration of the mutation loop in `_sample_raw_rates` (lines 83-94):
update the entry at `idx` with the clamped proposal built from draw `delta`. -/
noncomputable def mutatePoint (base cur : List ℝ) (idx : ℕ) (delta : ℝ) : List ℝ :=
  let base_rate := base.getD idx 0
  let current_rate := cur.getD idx 0
  let proposed := current_rate * (1.0 + delta)
  let lower_bound := max (base_rate * (1.0 - MAX_MUTATION_FRACTION)) MIN_CURVE_RATE
  let upper_bound := base_rate * (1.0 + MAX_MUTATION_FRACTION)
  cur.set idx (clip proposed lower_bound upper_bound)

/-- The whole mutation loop: fold `mutatePoint` over the drawn
(index, delta) pairs. -/
noncomputable def applyMutations (base cur : List ℝ) (draws : List (ℕ × ℝ)) : List ℝ :=
  draws.foldl (fun c d => mutatePoint base c d.1 d.2) cur

/-- First-call initialisation of the shared state (lines 72-74). -/
noncomputable def ensureInit (tenors : List ℝ) (s : Option CurveState) : CurveState :=
  match s with
  | none => ⟨base_em_curve tenors, base_em_curve tenors⟩
  | some st => st

/-- One call of the mutator `_sample_raw_rates`: initialise if needed,
mutate the drawn points in place, return the new state and a copy of the
current raw rates. -/
noncomputable def sample_raw_rates (tenors : List ℝ) (s : Option CurveState)
    (draws : List (ℕ × ℝ)) : CurveState × List ℝ :=
  let st := ensureInit tenors s
  let cur := applyMutations st.base st.current draws
  (⟨st.base, cur⟩, cur)

/-- A sequence of mutator calls starting from state `s` (each element of
`calls` is the draw list of one call). -/
noncomputable def runMutator (tenors : List ℝ) (calls : List (List (ℕ × ℝ)))
    (s : Option CurveState) : Option CurveState :=
  calls.foldl (fun st draws => some (sample_raw_rates tenors st draws).1) s

/-- The invariant of the mutable state: every current rate sits in
`[max(base*0.8, MIN_CURVE_RATE), base*1.2]`. -/
def InBounds (base cur : List ℝ) : Prop :=
  cur.length = base.length ∧
  ∀ i, i < cur.length →
    max (base.getD i 0 * (1.0 - MAX_MUTATION_FRACTION)) MIN_CURVE_RATE ≤ cur.getD i 0 ∧
    cur.getD i 0 ≤ base.getD i 0 * (1.0 + MAX_MUTATION_FRACTION)

/-- A base curve whose values all sit at or above the rate floor. -/
def BaseOK (base : List ℝ) : Prop :=
  ∀ i, i < base.length → MIN_CURVE_RATE ≤ base.getD i 0

lemma min_curve_rate_pos : (0 : ℝ) < MIN_CURVE_RATE := by
  unfold MIN_CURVE_RATE; norm_num

lemma clip_mem (x lo hi : ℝ) (h : lo ≤ hi) :
    lo ≤ clip x lo hi ∧ clip x lo hi ≤ hi := by
  unfold clip
  constructor
  · exact le_min (le_max_right x lo) h
  · exact min_le_right _ _

lemma mutatePoint_length (base cur : List ℝ) (idx : ℕ) (delta : ℝ) :
    (mutatePoint base cur idx delta).length = cur.length := by
  simp [mutatePoint]

lemma mutatePoint_getD_ne (base cur : List ℝ) (idx j : ℕ) (delta : ℝ)
    (h : idx ≠ j) :
    (mutatePoint base cur idx delta).getD j 0 = cur.getD j 0 := by
  simp [mutatePoint, List.getD_eq_getElem?_getD, List.getElem?_set_ne h]

lemma mutatePoint_preserves (base cur : List ℝ) (idx : ℕ) (delta : ℝ)
    (hb : BaseOK base) (hin : InBounds base cur) :
    InBounds base (mutatePoint base cur idx delta) := by
  obtain ⟨hlen, hbnd⟩ := hin
  refine ⟨by rw [mutatePoint_length]; exact hlen, ?_⟩
  intro i hi
  rw [mutatePoint_length] at hi
  by_cases hij : idx = i
  · subst hij
    have hbase : MIN_CURVE_RATE ≤ base.getD idx 0 := hb idx (hlen ▸ hi)
    have e : MIN_CURVE_RATE = (1.5 : ℝ) := rfl
    have f : MAX_MUTATION_FRACTION = (0.20 : ℝ) := rfl
    rw [e] at hbase
    have hle : max (base.getD idx 0 * (1.0 - MAX_MUTATION_FRACTION)) MIN_CURVE_RATE ≤
        base.getD idx 0 * (1.0 + MAX_MUTATION_FRACTION) := by
      rw [e, f]
      apply max_le <;> nlinarith
    have hset : (mutatePoint base cur idx delta).getD idx 0 =
        clip (cur.getD idx 0 * (1.0 + delta))
          (max (base.getD idx 0 * (1.0 - MAX_MUTATION_FRACTION)) MIN_CURVE_RATE)
          (base.getD idx 0 * (1.0 + MAX_MUTATION_FRACTION)) := by
      have hidx : idx < cur.length := hi
      simp [mutatePoint, List.getD_eq_getElem?_getD, List.getElem?_set_self hidx]
    rw [hset]
    exact clip_mem _ _ _ hle
  · rw [mutatePoint_getD_ne base cur idx i delta hij]
    exact hbnd i hi

lemma applyMutations_preserves (base : List ℝ) (draws : List (ℕ × ℝ))
    (hb : BaseOK base) :
    ∀ cur, InBounds base cur → InBounds base (applyMutations base cur draws) := by
  induction draws with
  | nil => intro cur h; exact h
  | cons d rest ih =>
    intro cur h
    have : applyMutations base cur (d :: rest) =
        applyMutations base (mutatePoint base cur d.1 d.2) rest := rfl
    rw [this]
    exact ih _ (mutatePoint_preserves base cur d.1 d.2 hb h)

lemma baseOK_tenor_base : BaseOK (base_em_curve TENOR_YEARS) := by
  intro i hi
  have hmem : (base_em_curve TENOR_YEARS).getD i 0 ∈ base_em_curve TENOR_YEARS := by
    rw [List.getD_eq_getElem?_getD, List.getElem?_eq_getElem hi]
    exact List.getElem_mem hi
  have := baseCurve_lower_bound _ hmem
  have h15 : MIN_CURVE_RATE = (1.5 : ℝ) := rfl
  rw [h15]; linarith

lemma inBounds_init (base : List ℝ) (hb : BaseOK base) : InBounds base base := by
  refine ⟨rfl, ?_⟩
  intro i hi
  have hbase : MIN_CURVE_RATE ≤ base.getD i 0 := hb i hi
  have e : MIN_CURVE_RATE = (1.5 : ℝ) := rfl
  have f : MAX_MUTATION_FRACTION = (0.20 : ℝ) := rfl
  rw [e] at hbase
  rw [e, f]
  constructor
  · apply max_le <;> nlinarith
  · nlinarith

lemma sample_raw_rates_preserves (tenors : List ℝ) (s : Option CurveState)
    (draws : List (ℕ × ℝ)) (hb : BaseOK (ensureInit tenors s).base)
    (hin : InBounds (ensureInit tenors s).base (ensureInit tenors s).current) :
    (sample_raw_rates tenors s draws).1.base = (ensureInit tenors s).base ∧
    InBounds (sample_raw_rates tenors s draws).1.base
      (sample_raw_rates tenors s draws).1.current := by
  refine ⟨rfl, ?_⟩
  exact applyMutations_preserves _ draws hb _ hin

/-- States reachable from the uninitialised state by mutator calls on the
fixed tenor grid keep the base curve fixed and the current rates in bounds. -/
lemma runMutator_invariant (calls : List (List (ℕ × ℝ))) :
    ∀ s : Option CurveState,
      (s = none ∨ ∃ st, s = some st ∧ st.base = base_em_curve TENOR_YEARS ∧
        InBounds st.base st.current) →
      ∀ st', runMutator TENOR_YEARS calls s = some st' →
        st'.base = base_em_curve TENOR_YEARS ∧ InBounds st'.base st'.current := by
  induction calls with
  | nil =>
    intro s hs st' h
    simp only [runMutator, List.foldl_nil] at h
    rcases hs with h0 | ⟨st, rfl, hbase, hin⟩
    · rw [h0] at h; cases h
    · cases h; exact ⟨hbase, hin⟩
  | cons draws rest ih =>
    intro s hs st' h
    simp only [runMutator, List.foldl_cons] at h
    apply ih (some (sample_raw_rates TENOR_YEARS s draws).1) _ st' h
    right
    refine ⟨_, rfl, ?_⟩
    have hbase : (ensureInit TENOR_YEARS s).base = base_em_curve TENOR_YEARS ∧
        InBounds (ensureInit TENOR_YEARS s).base (ensureInit TENOR_YEARS s).current := by
      rcases hs with h0 | ⟨st, rfl, hb, hin⟩
      · rw [h0]
        exact ⟨rfl, inBounds_init _ baseOK_tenor_base⟩
      · exact ⟨hb, hin⟩
    have hb : BaseOK (ensureInit TENOR_YEARS s).base := by
      rw [hbase.1]; exact baseOK_tenor_base
    obtain ⟨h1, h2⟩ := sample_raw_rates_preserves TENOR_YEARS s draws hb hbase.2
    exact ⟨h1.trans hbase.1, h2⟩

/-- Arithmetic mean, as `np.var` uses it (population mean). -/
noncomputable def mean (xs : List ℝ) : ℝ := xs.sum / (xs.length : ℝ)

/-- Model of `np.var(rates)` (population variance, `ddof = 0`). -/
noncomputable def variance (xs : List ℝ) : ℝ :=
  ((xs.map (fun x => (x - mean xs) ^ 2)).sum) / (xs.length : ℝ)

/-- Model of `np.polyval(coeffs, x)`: Horner evaluation with the
highest-degree coefficient first. -/
noncomputable def polyval (coeffs : List ℝ) (x : ℝ) : ℝ :=
  coeffs.foldl (fun acc c => acc * x + c) 0

/-- Model of `np.polyfit(tenors, rates, deg)` (an external library call):
least-squares coefficients of the Vandermonde system through the normal
equations, `deg + 1` values with the highest power first.  Ill-conditioned
systems are accepted as-is, matching the reference behaviour. -/
noncomputable def polyfit (tenors rates : List ℝ) (deg : ℕ) : List ℝ :=
  let n := tenors.length
  let V : Matrix (Fin n) (Fin (deg + 1)) ℝ :=
    fun i j => (tenors.getD i.val 0) ^ (deg - j.val)
  let y : Fin n → ℝ := fun i => rates.getD i.val 0
  let G : Matrix (Fin (deg + 1)) (Fin (deg + 1)) ℝ := V.transpose * V
  let c : Fin (deg + 1) → ℝ := G⁻¹.mulVec (V.transpose.mulVec y)
  (List.finRange (deg + 1)).map c

/-- Result record of `_fit_curve` (the dict with keys `gridYears`, `rates`,
`polynomialCoefficients`). -/
structure FitResult where
  gridYears : List ℝ
  rates : List ℝ
  polynomialCoefficients : List ℝ

/-- Model of `_fit_curve`: reject zero variance with the 400 error detail,
otherwise fit and evaluate on the grid. -/
noncomputable def fit_curve (tenors rates grid : List ℝ) (degree : ℕ := 4) :
    Except String FitResult :=
  if variance rates = 0 then Except.error "Cannot fit curve without variance"
  else
    let coefficients := polyfit tenors rates degree
    Except.ok ⟨grid, grid.map (polyval coefficients), coefficients⟩

/-- Snapshot record built by `_build_curve_snapshot`: exactly the four
top-level fields of the source dict, in source order. -/
structure Snapshot where
  timestamp : String
  tenorYears : List ℝ
  rawRates : List ℝ
  fit : FitResult

/-- Model of `_build_curve_snapshot`: run the mutator first (committing its
state), then the fitter; a fit failure is propagated unchanged and the
mutated state is kept. -/
noncomputable def build_curve_snapshot (s : Option CurveState)
    (draws : List (ℕ × ℝ)) (ts : String) :
    CurveState × Except String Snapshot :=
  let r := sample_raw_rates TENOR_YEARS s draws
  match fit_curve TENOR_YEARS r.2 FITTED_GRID 4 with
  | Except.error e => (r.1, Except.error e)
  | Except.ok f => (r.1, Except.ok ⟨ts, TENOR_YEARS, r.2, f⟩)

/-- Model of the `/curves/stream` endpoint's request handling: the interval
guard runs before anything touches the curve state, and the SSE generator
body is lazy, so the handler itself returns the state unchanged. -/
noncomputable def stream_swap_curves (interval : ℝ) (s : Option CurveState) :
    Except String Unit × Option CurveState :=
  if interval ≤ 0 then (Except.error "interval must be positive", s)
  else (Except.ok (), s)

lemma variance_of_all_eq (xs : List ℝ) (c : ℝ) (h : ∀ x ∈ xs, x = c) :
    variance xs = 0 := by
  rcases List.eq_nil_or_concat xs with rfl | _
  · simp [variance, mean]
  · have hrep : xs = List.replicate xs.length c :=
      (List.eq_replicate_iff.mpr ⟨rfl, h⟩)
    have hsum : xs.sum = (xs.length : ℝ) * c := by
      rw [hrep]
      simp [List.sum_replicate, List.length_replicate, nsmul_eq_mul]
    by_cases hn : xs.length = 0
    · rw [List.length_eq_zero.mp hn]; simp [variance, mean]
    · have hmean : mean xs = c := by
        rw [mean, hsum]
        field_simp
      have hmap : xs.map (fun x => (x - mean xs) ^ 2) =
          List.replicate xs.length 0 := by
        rw [List.eq_replicate_iff]
        refine ⟨by simp, ?_⟩
        intro b hb
        obtain ⟨x, hx, rfl⟩ := List.mem_map.mp hb
        rw [h x hx, hmean]
        ring
      rw [variance, hmap]
      simp [List.sum_replicate]

lemma variance_singleton (c : ℝ) : variance [c] = 0 :=
  variance_of_all_eq [c] c (by intro x hx; simpa using hx)

lemma polyfit_length (tenors rates : List ℝ) (deg : ℕ) :
    (polyfit tenors rates deg).length = deg + 1 := by
  simp [polyfit]

lemma fitted_grid_length : FITTED_GRID.length = 120 := by
  simp only [FITTED_GRID, List.length_map, List.length_range]

lemma applyMutations_length (base : List ℝ) (draws : List (ℕ × ℝ)) :
    ∀ cur, (applyMutations base cur draws).length = cur.length := by
  induction draws with
  | nil => intro cur; rfl
  | cons d rest ih =>
    intro cur
    have : applyMutations base cur (d :: rest) =
        applyMutations base (mutatePoint base cur d.1 d.2) rest := rfl
    rw [this, ih, mutatePoint_length]

lemma applyMutations_getD_not_selected (base : List ℝ) (draws : List (ℕ × ℝ)) :
    ∀ cur j, j ∉ draws.map Prod.fst →
      (applyMutations base cur draws).getD j 0 = cur.getD j 0 := by
  induction draws with
  | nil => intro cur j _; rfl
  | cons d rest ih =>
    intro cur j hj
    simp only [List.map_cons, List.mem_cons, not_or] at hj
    have step : applyMutations base cur (d :: rest) =
        applyMutations base (mutatePoint base cur d.1 d.2) rest := rfl
    rw [step, ih _ j hj.2, mutatePoint_getD_ne base cur d.1 j d.2 (fun h => hj.1 h.symm)]

/-- C1: starting from the uninitialised shared state, any sequence of mutator
calls on the fixed tenor grid keeps every current raw rate at index `i`
inside `[max(base[i] * 0.8, MIN_CURVE_RATE), base[i] * 1.2]`, whatever the
random draws were. -/
theorem mutator_rates_always_in_bounds (calls : List (List (ℕ × ℝ)))
    (st : CurveState) (h : runMutator TENOR_YEARS calls none = some st)
    (i : ℕ) (hi : i < st.current.length) :
    max ((base_em_curve TENOR_YEARS).getD i 0 * 0.8) MIN_CURVE_RATE ≤
      st.current.getD i 0 ∧
    st.current.getD i 0 ≤ (base_em_curve TENOR_YEARS).getD i 0 * 1.2 := by
  obtain ⟨hbase, hlen, hbnd⟩ := runMutator_invariant calls none (Or.inl rfl) st h
  have hb := hbnd i hi
  rw [hbase] at hb
  have f : MAX_MUTATION_FRACTION = (0.20 : ℝ) := rfl
  rw [f] at hb
  have e1 : (1.0 - 0.20 : ℝ) = 0.8 := by norm_num
  have e2 : (1.0 + 0.20 : ℝ) = 1.2 := by norm_num
  rw [e1, e2] at hb
  exact hb

/-- C1 witness: one call with an empty draw list from the uninitialised
state, checked at tenor index 0. -/
theorem mutator_rates_always_in_bounds_witness :
    max ((base_em_curve TENOR_YEARS).getD 0 0 * 0.8) MIN_CURVE_RATE ≤
      (CurveState.mk (base_em_curve TENOR_YEARS) (base_em_curve TENOR_YEARS)).current.getD 0 0 ∧
    (CurveState.mk (base_em_curve TENOR_YEARS) (base_em_curve TENOR_YEARS)).current.getD 0 0 ≤
      (base_em_curve TENOR_YEARS).getD 0 0 * 1.2 :=
  mutator_rates_always_in_bounds [[]]
    (CurveState.mk (base_em_curve TENOR_YEARS) (base_em_curve TENOR_YEARS)) rfl 0
    (by simp [base_em_curve_eq_map, TENOR_YEARS])

/-- C2: `_fit_curve` fails with the invalid-input error exactly when the
rates' variance is zero (in particular on every all-equal rates sequence,
whatever the tenors), and with nonzero variance returns `degree + 1`
polynomial coefficients together with the polynomial evaluated at every grid
point. -/
theorem fit_curve_error_iff_zero_variance (tenors rates grid : List ℝ)
    (degree : ℕ) :
    ((fit_curve tenors rates grid degree).isOk = true ↔ variance rates ≠ 0) ∧
    (∀ c : ℝ, (∀ r ∈ rates, r = c) →
      fit_curve tenors rates grid degree =
        Except.error "Cannot fit curve without variance") ∧
    (variance rates ≠ 0 →
      fit_curve tenors rates grid degree =
        Except.ok ⟨grid, grid.map (polyval (polyfit tenors rates degree)),
          polyfit tenors rates degree⟩ ∧
      (polyfit tenors rates degree).length = degree + 1) := by
  refine ⟨?_, ?_, ?_⟩
  · by_cases h : variance rates = 0 <;> simp [fit_curve, h, Except.isOk, Except.toBool]
  · intro c hc
    simp [fit_curve, variance_of_all_eq rates c hc]
  · intro h
    exact ⟨by simp [fit_curve, h], polyfit_length tenors rates degree⟩

/-- C3: the base curve generator computes exactly the spec's shape function
`(8.0 - 0.8·e^(-t)) + 1.4·(1 - e^(-t/7)) + 0.25·sin(t/1.5)
+ 0.35·e^(-(t-12)²/30)` at every input tenor (a total pure function: no
side effects and no failure mode in the model). -/
theorem base_em_curve_matches_spec_formula (tenors : List ℝ) :
    base_em_curve tenors = tenors.map specRate :=
  base_em_curve_eq_map tenors

/-- C4: the snapshot builder commits the mutator's update before fitting:
its resulting state is always the mutated state (even on failure, i.e. no
rollback), a fit error is propagated unchanged with no snapshot, and the fit
error is the only failure path. -/
theorem snapshot_builder_commits_before_fit (s : Option CurveState)
    (draws : List (ℕ × ℝ)) (ts : String) :
    (build_curve_snapshot s draws ts).1 = (sample_raw_rates TENOR_YEARS s draws).1 ∧
    (∀ e : String,
      fit_curve TENOR_YEARS (sample_raw_rates TENOR_YEARS s draws).2 FITTED_GRID 4 =
        Except.error e →
      (build_curve_snapshot s draws ts).2 = Except.error e) ∧
    ((build_curve_snapshot s draws ts).2.isOk =
      (fit_curve TENOR_YEARS (sample_raw_rates TENOR_YEARS s draws).2 FITTED_GRID 4).isOk) := by
  rcases hfit : fit_curve TENOR_YEARS (sample_raw_rates TENOR_YEARS s draws).2 FITTED_GRID 4
    with e | f
  · have hb : build_curve_snapshot s draws ts =
        ((sample_raw_rates TENOR_YEARS s draws).1, Except.error e) := by
      simp [build_curve_snapshot, hfit]
    refine ⟨by rw [hb], ?_, by rw [hb]; rfl⟩
    intro e' he'
    obtain rfl : e = e' := by injection he'
    rw [hb]
  · have hb : build_curve_snapshot s draws ts =
        ((sample_raw_rates TENOR_YEARS s draws).1,
          Except.ok ⟨ts, TENOR_YEARS, (sample_raw_rates TENOR_YEARS s draws).2, f⟩) := by
      simp [build_curve_snapshot, hfit]
    refine ⟨by rw [hb], ?_, by rw [hb]; rfl⟩
    intro e' he'
    simp at he'

/-- C5: when the drawn count `k` lies in `{1, ..., MAX_MUTATED_POINTS}` and
the `k` drawn indices are distinct, a mutator call preserves the length of
the shared raw-rates vector and leaves every non-selected index exactly
unchanged from its value before the call. -/
theorem mutator_updates_only_selected (tenors : List ℝ) (st : CurveState)
    (draws : List (ℕ × ℝ)) (hk1 : 1 ≤ draws.length)
    (hk2 : draws.length ≤ MAX_MUTATED_POINTS)
    (hnodup : (draws.map Prod.fst).Nodup) (j : ℕ)
    (hj : j ∉ draws.map Prod.fst) :
    (sample_raw_rates tenors (some st) draws).1.current.length = st.current.length ∧
    (sample_raw_rates tenors (some st) draws).1.current.getD j 0 = st.current.getD j 0 :=
  ⟨applyMutations_length st.base draws st.current,
   applyMutations_getD_not_selected st.base draws st.current j hj⟩

/-- C5 witness: one draw at index 0 with delta 0 leaves index 1 unchanged. -/
theorem mutator_updates_only_selected_witness :
    (sample_raw_rates [(1 : ℝ)] (some (CurveState.mk [2] [2])) [(0, 0)]).1.current.length =
      (CurveState.mk [(2 : ℝ)] [(2 : ℝ)]).current.length ∧
    (sample_raw_rates [(1 : ℝ)] (some (CurveState.mk [2] [2])) [(0, 0)]).1.current.getD 1 0 =
      (CurveState.mk [(2 : ℝ)] [(2 : ℝ)]).current.getD 1 0 :=
  mutator_updates_only_selected [(1 : ℝ)] (CurveState.mk [2] [2]) [(0, 0)]
    (by norm_num) (by norm_num [MAX_MUTATED_POINTS]) (by simp) 1 (by simp)

/-- C6: the stream endpoint rejects exactly the non-positive tick intervals
with the invalid-request error before touching the shared curve state, and
accepts every positive interval. -/
theorem stream_rejects_nonpositive_interval (interval : ℝ)
    (s : Option CurveState) :
    (stream_swap_curves interval s).2 = s ∧
    ((stream_swap_curves interval s).1 = Except.error "interval must be positive" ↔
      interval ≤ 0) ∧
    ((stream_swap_curves interval s).1 = Except.ok () ↔ 0 < interval) := by
  by_cases h : interval ≤ 0
  · have hs : stream_swap_curves interval s =
        (Except.error "interval must be positive", s) := by
      simp [stream_swap_curves, h]
    rw [hs]
    refine ⟨rfl, ⟨fun _ => h, fun _ => rfl⟩, ⟨fun hc => ?_, fun hc => ?_⟩⟩
    · cases hc
    · exact absurd h (not_le.mpr hc)
  · have hs : stream_swap_curves interval s = (Except.ok (), s) := by
      simp [stream_swap_curves, h]
    rw [hs]
    refine ⟨rfl, ⟨fun hc => ?_, fun hc => ?_⟩, ⟨fun _ => lt_of_not_le h, fun _ => rfl⟩⟩
    · cases hc
    · exact absurd hc h

/-- C7: every snapshot the builder returns carries exactly the four
top-level fields of the `Snapshot` record (timestamp, tenorYears, rawRates,
fit), and its `fit.gridYears` and `fit.rates` both have the evaluation-grid
length 120. -/
theorem snapshot_has_grid_length (s : Option CurveState)
    (draws : List (ℕ × ℝ)) (ts : String) (snap : Snapshot)
    (h : (build_curve_snapshot s draws ts).2 = Except.ok snap) :
    snap.timestamp = ts ∧ snap.tenorYears = TENOR_YEARS ∧
    FITTED_GRID.length = 120 ∧
    snap.fit.gridYears.length = 120 ∧ snap.fit.rates.length = 120 := by
  by_cases hvar : variance (sample_raw_rates TENOR_YEARS s draws).2 = 0
  · exfalso
    simp [build_curve_snapshot, fit_curve, hvar] at h
  · simp only [build_curve_snapshot, fit_curve, if_neg hvar] at h
    cases h
    refine ⟨rfl, rfl, fitted_grid_length, fitted_grid_length, ?_⟩
    rw [List.length_map, fitted_grid_length]

/-- C7 witness: a concrete successful snapshot from a small pre-initialised
state. -/
theorem snapshot_has_grid_length_witness :
    (Snapshot.mk "t" TENOR_YEARS [(1 : ℝ), 2]
      (FitResult.mk FITTED_GRID
        (FITTED_GRID.map (polyval (polyfit TENOR_YEARS [(1 : ℝ), 2] 4)))
        (polyfit TENOR_YEARS [(1 : ℝ), 2] 4))).timestamp = "t" ∧
    (Snapshot.mk "t" TENOR_YEARS [(1 : ℝ), 2]
      (FitResult.mk FITTED_GRID
        (FITTED_GRID.map (polyval (polyfit TENOR_YEARS [(1 : ℝ), 2] 4)))
        (polyfit TENOR_YEARS [(1 : ℝ), 2] 4))).tenorYears = TENOR_YEARS ∧
    FITTED_GRID.length = 120 ∧
    (Snapshot.mk "t" TENOR_YEARS [(1 : ℝ), 2]
      (FitResult.mk FITTED_GRID
        (FITTED_GRID.map (polyval (polyfit TENOR_YEARS [(1 : ℝ), 2] 4)))
        (polyfit TENOR_YEARS [(1 : ℝ), 2] 4))).fit.gridYears.length = 120 ∧
    (Snapshot.mk "t" TENOR_YEARS [(1 : ℝ), 2]
      (FitResult.mk FITTED_GRID
        (FITTED_GRID.map (polyval (polyfit TENOR_YEARS [(1 : ℝ), 2] 4)))
        (polyfit TENOR_YEARS [(1 : ℝ), 2] 4))).fit.rates.length = 120 :=
  snapshot_has_grid_length (some (CurveState.mk [1, 2] [1, 2])) [] "t" _ (by
    have hvar : variance [(1 : ℝ), 2] ≠ 0 := by
      norm_num [variance, mean]
    simp [build_curve_snapshot, sample_raw_rates, ensureInit, applyMutations,
      fit_curve, hvar])

/-- C8: for every sequence of (positive) tenors, the base curve generator
returns one rate per input tenor and every returned rate is strictly
positive. -/
theorem base_em_curve_length_and_pos (tenors : List ℝ)
    (h : ∀ t ∈ tenors, 0 < t) :
    (base_em_curve tenors).length = tenors.length ∧
    ∀ r ∈ base_em_curve tenors, 0 < r := by
  constructor
  · rw [base_em_curve_eq_map]
    exact List.length_map _ _
  · intro r hr
    rw [base_em_curve_eq_map] at hr
    obtain ⟨t, ht, rfl⟩ := List.mem_map.mp hr
    have := specRate_lower_bound t (le_of_lt (h t ht))
    linarith

/-- C8 witness: the singleton tenor sequence `[1]`. -/
theorem base_em_curve_length_and_pos_witness :
    (base_em_curve [(1 : ℝ)]).length = [(1 : ℝ)].length ∧
    ∀ r ∈ base_em_curve [(1 : ℝ)], 0 < r :=
  base_em_curve_length_and_pos [(1 : ℝ)] (by
    intro t ht
    simp only [List.mem_singleton] at ht
    rw [ht]; norm_num)

/-- C9: a rates sequence of length one always has variance zero, so the
fitter rejects it with the degenerate-input error, whatever the tenors, the
grid and the degree. -/
theorem fit_curve_rejects_singleton (c : ℝ) (tenors grid : List ℝ)
    (degree : ℕ) :
    fit_curve tenors [c] grid degree =
      Except.error "Cannot fit curve without variance" := by
  simp [fit_curve, variance_singleton]

/-- C10: `np.clip` returns the upper bound when the lower bound exceeds it,
so a mutation at an index with `base[i] * 1.2 < MIN_CURVE_RATE` would yield
exactly `base[i] * 1.2`, strictly below the floor; for the fixed tenor grid
every index satisfies `MIN_CURVE_RATE ≤ base[i] * 1.2`, so the floor
invariant does hold there. -/
theorem clip_inverted_bounds_cap :
    (∀ x lo hi : ℝ, hi < lo → clip x lo hi = hi) ∧
    (∀ (base cur : List ℝ) (idx : ℕ) (delta : ℝ), idx < cur.length →
      base.getD idx 0 * (1.0 + MAX_MUTATION_FRACTION) < MIN_CURVE_RATE →
      (mutatePoint base cur idx delta).getD idx 0 =
        base.getD idx 0 * (1.0 + MAX_MUTATION_FRACTION) ∧
      (mutatePoint base cur idx delta).getD idx 0 < MIN_CURVE_RATE) ∧
    (∀ i, i < (base_em_curve TENOR_YEARS).length →
      MIN_CURVE_RATE ≤ (base_em_curve TENOR_YEARS).getD i 0 * (1.0 + MAX_MUTATION_FRACTION)) := by
  have hclip : ∀ x lo hi : ℝ, hi < lo → clip x lo hi = hi := by
    intro x lo hi h
    unfold clip
    exact min_eq_right (le_of_lt (lt_of_lt_of_le h (le_max_right x lo)))
  refine ⟨hclip, ?_, ?_⟩
  · intro base cur idx delta hidx hlt
    have hset : (mutatePoint base cur idx delta).getD idx 0 =
        clip (cur.getD idx 0 * (1.0 + delta))
          (max (base.getD idx 0 * (1.0 - MAX_MUTATION_FRACTION)) MIN_CURVE_RATE)
          (base.getD idx 0 * (1.0 + MAX_MUTATION_FRACTION)) := by
      simp [mutatePoint, List.getD_eq_getElem?_getD, List.getElem?_set_self hidx]
    have hinv : base.getD idx 0 * (1.0 + MAX_MUTATION_FRACTION) <
        max (base.getD idx 0 * (1.0 - MAX_MUTATION_FRACTION)) MIN_CURVE_RATE :=
      lt_of_lt_of_le hlt (le_max_right _ _)
    rw [hset, hclip _ _ _ hinv]
    exact ⟨rfl, hlt⟩
  · intro i hi
    have hbase := baseOK_tenor_base i hi
    have e : MIN_CURVE_RATE = (1.5 : ℝ) := rfl
    have f : MAX_MUTATION_FRACTION = (0.20 : ℝ) := rfl
    rw [e] at hbase ⊢
    rw [f]
    nlinarith

end CurveFitter
